/-
Verification of the Ethiopian ↔ Gregorian date converter.

The repository ships a pure C core (`ethiopic_calendar.c/h`, declared by the
bindings and exercised by `src/core/tests/test_ethiopic_calendar.c`) plus two
thin N-API adapter layers (`src/bindings/js/src/binding.cpp` and
`src/bindings/ts/src/native/binding.cpp`).  The core's C source itself is not
part of the checked-in excerpt, so the core functions below are modelled from
the specification (standard proleptic-Gregorian and Ethiopic JDN formulas,
anchored by the epoch constants and by the literal test vectors of
`test_ethiopic_calendar.c`).  The adapter functions are translated directly
from `binding.cpp`.

All machine integers of the source (`int32_t` fields, `int64_t` JDNs) are
modelled as unbounded `Int`; every division below has a positive constant
divisor, for which Lean's Euclidean `/` and `%` on `Int` agree with
floor-division semantics.
-/
import Mathlib

/-- The `date_t` struct of the core: a plain `(year, month, day)` triple of
signed integers, with no validity sentinel encoded in the type. -/
structure date_t where
  year : Int
  month : Int
  day : Int
deriving Repr, DecidableEq

/-- Modelled from the spec: exposed epoch constant, the JDN offset of the
Amete Alem ("Era of the World") Ethiopian epoch. -/
def JD_EPOCH_OFFSET_AMETE_ALEM : Int := -285019

/-- Modelled from the spec: exposed epoch constant, the JDN offset of the
Amete Mihret ("Era of Mercy") Ethiopian epoch. -/
def JD_EPOCH_OFFSET_AMETE_MIHRET : Int := 1723856

/-- Modelled from the spec: exposed epoch constant for the Gregorian calendar;
the JDN of proleptic Gregorian January 1 of year 1. -/
def JD_EPOCH_OFFSET_GREGORIAN : Int := 1721426

/-- Modelled from the spec (the missing core's `is_gregorian_leap`):
true iff `year % 4 == 0 && (year % 100 != 0 || year % 400 == 0)`. -/
def is_gregorian_leap (year : Int) : Bool :=
  year % 4 == 0 && (year % 100 != 0 || year % 400 == 0)

/-- Modelled from the spec (the missing core's Ethiopian leap rule
`ethiopic_is_leap`): true iff `year % 4 == 3`; decides whether Pagume
(month 13) has 6 days instead of 5. -/
def ethiopic_is_leap (year : Int) : Bool :=
  year % 4 == 3

/-- Modelled from the spec: the number of days of a Gregorian month per the
standard 28/29/30/31 table, February having 29 exactly in leap years. -/
def gregorianDaysInMonth (year month : Int) : Int :=
  if month = 2 then (if is_gregorian_leap year then 29 else 28)
  else if month = 4 ∨ month = 6 ∨ month = 9 ∨ month = 11 then 30
  else 31

/-- Modelled from the spec (the missing core's `is_valid_gregorian_date`):
month in 1–12, day in 1..days-in-month per the standard 28/29/30/31 table. -/
def is_valid_gregorian_date (year month day : Int) : Bool :=
  1 ≤ month && month ≤ 12 && 1 ≤ day && day ≤ gregorianDaysInMonth year month

/-- Modelled from the spec: the number of days of an Ethiopian month — 30 for
months 1–12, and for Pagume (month 13) 5, or 6 in Ethiopian leap years. -/
def ethiopicDaysInMonth (year month : Int) : Int :=
  if month = 13 then (if ethiopic_is_leap year then 6 else 5) else 30

/-- Modelled from the spec (the missing core's `is_valid_ethiopic_date`):
month in 1–13; day in 1..days-in-month per the Ethiopian month lengths. -/
def is_valid_ethiopic_date (year month day : Int) : Bool :=
  1 ≤ month && month ≤ 13 && 1 ≤ day && day ≤ ethiopicDaysInMonth year month

/-- Cumulative number of days before the first of `month` in a Gregorian year
(`leap` tells whether that year is a leap year): the standard
31/28+/31/30/... table, with the March–December part expressed through the
exact 153-day five-month cycle `(153 * (month - 3) + 2) / 5`. -/
def monthStartDays (leap : Bool) (month : Int) : Int :=
  let leapAdj : Int := if leap then 1 else 0
  if month ≤ 1 then 0
  else if month = 2 then 31
  else 59 + leapAdj + (153 * (month - 3) + 2) / 5

/-- Modelled from the spec (the missing core's `gregorian_to_jdn`): the
standard proleptic-Gregorian-to-JDN formula — days-before-year count
(365/400-year cycle corrections) plus the day of year, anchored so that
Gregorian 1-1-1 maps to `JD_EPOCH_OFFSET_GREGORIAN`.  No validation. -/
def gregorian_to_jdn (year month day : Int) : Int :=
  JD_EPOCH_OFFSET_GREGORIAN
    + 365 * (year - 1) + (year - 1) / 4 - (year - 1) / 100 + (year - 1) / 400
    + monthStartDays (is_gregorian_leap year) month + day - 1

/-- Year and (1-based) day-of-year from a day count relative to the Gregorian
epoch (`d0 = 0` is January 1 of year 1): Euclidean divisions by the 400-year
(146097-day), 100-year (36524-day), 4-year (1461-day) and single-year cycles,
with the last day of a leap cycle folded back into day 366. -/
def yearDoyFromDays (d0 : Int) : Int × Int :=
  let n400 := d0 / 146097
  let d1 := d0 % 146097
  let n100 := d1 / 36524
  let d2 := d1 % 36524
  let n4 := d2 / 1461
  let d3 := d2 % 1461
  let n1 := d3 / 365
  if n100 == 4 || n1 == 4 then
    (400 * n400 + 100 * n100 + 4 * n4 + n1, 366)
  else
    (400 * n400 + 100 * n100 + 4 * n4 + n1 + 1, d3 % 365 + 1)

/-- Month and day from a (1-based) day-of-year, inverting `monthStartDays`;
January and February are read off directly, later months through the 153-day
cycle. -/
def doyToMonthDay (leap : Bool) (doy : Int) : Int × Int :=
  let leapAdj : Int := if leap then 1 else 0
  if doy ≤ 31 then (1, doy)
  else if doy ≤ 59 + leapAdj then (2, doy - 31)
  else
    let doy2 := doy - 60 - leapAdj
    let mp := (5 * doy2 + 2) / 153
    (mp + 3, doy2 - (153 * mp + 2) / 5 + 1)

/-- Modelled from the spec (the missing core's `jdn_to_gregorian`): inverse of
`gregorian_to_jdn` — recover year and day-of-year from the epoch-relative day
count, then month and day from the month-length table. -/
def jdn_to_gregorian (jdn : Int) : date_t :=
  let yd := yearDoyFromDays (jdn - JD_EPOCH_OFFSET_GREGORIAN)
  let md := doyToMonthDay (is_gregorian_leap yd.1) yd.2
  ⟨yd.1, md.1, md.2⟩

/-- Modelled from the spec (the missing core's `ethiopic_to_jdn`):
`epoch_offset + f(year, month, day)` with twelve 30-day months, Pagume as
month 13, and one leap day every 4 years; 1-based months and days. -/
def ethiopic_to_jdn (year month day era : Int) : Int :=
  era + 365 + 365 * (year - 1) + year / 4 + 30 * month + day - 31

/-- Modelled from the spec (the missing core's `jdn_to_ethiopic`): inverse of
`ethiopic_to_jdn` for the same epoch offset, via the 4-year (1461-day)
Ethiopian leap cycle. -/
def jdn_to_ethiopic (jdn era : Int) : date_t :=
  let delta := jdn - era
  let r := delta % 1461
  let n := r % 365 + 365 * (r / 1460)
  ⟨4 * (delta / 1461) + r / 365 - r / 1460, n / 30 + 1, n % 30 + 1⟩

/-- Modelled from the spec (the missing core's `guess_era`): Amete Mihret if
the JDN is on or after the JDN of Amete Mihret year 1, month 1, day 1;
otherwise Amete Alem.  A single threshold comparison. -/
def guess_era (jdn : Int) : Int :=
  if ethiopic_to_jdn 1 1 1 JD_EPOCH_OFFSET_AMETE_MIHRET ≤ jdn then
    JD_EPOCH_OFFSET_AMETE_MIHRET
  else
    JD_EPOCH_OFFSET_AMETE_ALEM

/-- Modelled from the spec (the missing core's `ethiopic_to_gregorian`):
Ethiopian → JDN → Gregorian under the given epoch offset. -/
def ethiopic_to_gregorian (year month day era : Int) : date_t :=
  jdn_to_gregorian (ethiopic_to_jdn year month day era)

/-- Modelled from the spec (the missing core's `gregorian_to_ethiopic`):
Gregorian → JDN → Ethiopian, always with era auto-detection since Gregorian
input carries no era. -/
def gregorian_to_ethiopic (year month day : Int) : date_t :=
  let jdn := gregorian_to_jdn year month day
  jdn_to_ethiopic jdn (guess_era jdn)

/-
The N-API adapter layer, translated from `src/bindings/js/src/binding.cpp`
(the TS native binding `src/bindings/ts/src/native/binding.cpp` is the same
file plus the five JDN helper exports).  A JavaScript call is modelled as a
`List (Option Int)`: one entry per supplied argument, `none` standing for a
null/undefined value, `some n` for a number.  A thrown `Napi::TypeError` is
an `Except.error` carrying the message; a returned value is `Except.ok`.
-/

/-- A value returned to JavaScript by the binding: a date object, a boolean,
or a number. -/
inductive NapiValue where
  | dateObj (d : date_t)
  | boolVal (b : Bool)
  | numVal (n : Int)
deriving Repr, DecidableEq

/-- Reading argument `i` as a number, as `info[i].As<Napi::Number>().Int32Value()`
does: a missing or null/undefined argument coerces to 0. -/
def napiArg (args : List (Option Int)) (i : Nat) : Int :=
  (args.getD i none).getD 0

/-- `EthiopicToGregorian` from `binding.cpp`: arity check, era from the
optional 4th argument (auto-detected via `guess_era` on the tentative
Amete-Mihret JDN when absent or null/undefined), validity check, then the
core conversion. -/
def napiEthiopicToGregorian (args : List (Option Int)) : Except String NapiValue :=
  if args.length < 3 then
    .error "Expected 3 arguments: year, month, day"
  else
    let year := napiArg args 0
    let month := napiArg args 1
    let day := napiArg args 2
    let era := match args.getD 3 none with
      | some e => e
      | none => guess_era (ethiopic_to_jdn year month day JD_EPOCH_OFFSET_AMETE_MIHRET)
    if is_valid_ethiopic_date year month day then
      .ok (.dateObj (ethiopic_to_gregorian year month day era))
    else
      .error "Invalid Ethiopian date"

/-- `GregorianToEthiopic` from `binding.cpp`: arity check, validity check,
then the core conversion. -/
def napiGregorianToEthiopic (args : List (Option Int)) : Except String NapiValue :=
  if args.length < 3 then
    .error "Expected 3 arguments: year, month, day"
  else
    let year := napiArg args 0
    let month := napiArg args 1
    let day := napiArg args 2
    if is_valid_gregorian_date year month day then
      .ok (.dateObj (gregorian_to_ethiopic year month day))
    else
      .error "Invalid Gregorian date"

/-- `IsValidEthiopicDate` from `binding.cpp`: with fewer than 3 arguments it
returns the boolean `false` (it does not throw). -/
def napiIsValidEthiopicDate (args : List (Option Int)) : Except String NapiValue :=
  if args.length < 3 then
    .ok (.boolVal false)
  else
    .ok (.boolVal (is_valid_ethiopic_date (napiArg args 0) (napiArg args 1) (napiArg args 2)))

/-- `IsValidGregorianDate` from `binding.cpp`: with fewer than 3 arguments it
returns the boolean `false` (it does not throw). -/
def napiIsValidGregorianDate (args : List (Option Int)) : Except String NapiValue :=
  if args.length < 3 then
    .ok (.boolVal false)
  else
    .ok (.boolVal (is_valid_gregorian_date (napiArg args 0) (napiArg args 1) (napiArg args 2)))

/-- `IsGregorianLeap` from `binding.cpp`: with no argument it returns the
boolean `false` (it does not throw). -/
def napiIsGregorianLeap (args : List (Option Int)) : Except String NapiValue :=
  if args.length < 1 then
    .ok (.boolVal false)
  else
    .ok (.boolVal (is_gregorian_leap (napiArg args 0)))

/-- `EthiopicToJDN` from the TS native `binding.cpp`: arity check, optional
epoch-offset 4th argument defaulting to Amete Mihret, no validation. -/
def napiEthiopicToJDN (args : List (Option Int)) : Except String NapiValue :=
  if args.length < 3 then
    .error "Expected 3 arguments: year, month, day"
  else
    let era := match args.getD 3 none with
      | some e => e
      | none => JD_EPOCH_OFFSET_AMETE_MIHRET
    .ok (.numVal (ethiopic_to_jdn (napiArg args 0) (napiArg args 1) (napiArg args 2) era))

/-- `GregorianToJDN` from the TS native `binding.cpp`: arity check, then the
raw conversion with no validation. -/
def napiGregorianToJDN (args : List (Option Int)) : Except String NapiValue :=
  if args.length < 3 then
    .error "Expected 3 arguments: year, month, day"
  else
    .ok (.numVal (gregorian_to_jdn (napiArg args 0) (napiArg args 1) (napiArg args 2)))

/-- `JDNToEthiopic` from the TS native `binding.cpp`: arity check, optional
epoch-offset 2nd argument defaulting to Amete Mihret. -/
def napiJDNToEthiopic (args : List (Option Int)) : Except String NapiValue :=
  if args.length < 1 then
    .error "Expected 1 argument: jdn"
  else
    let era := match args.getD 1 none with
      | some e => e
      | none => JD_EPOCH_OFFSET_AMETE_MIHRET
    .ok (.dateObj (jdn_to_ethiopic (napiArg args 0) era))

/-- `JDNToGregorian` from the TS native `binding.cpp`: arity check, then the
raw conversion. -/
def napiJDNToGregorian (args : List (Option Int)) : Except String NapiValue :=
  if args.length < 1 then
    .error "Expected 1 argument: jdn"
  else
    .ok (.dateObj (jdn_to_gregorian (napiArg args 0)))

/-- `GetDayOfWeek` from the TS native `binding.cpp`: `jdn % 7` with C++
truncating `%` semantics (`Int.tmod`), so a negative JDN yields a
non-positive result. -/
def getDayOfWeek (jdn : Int) : Int :=
  Int.tmod jdn 7

/-- The arity-checking wrapper around `getDayOfWeek`. -/
def napiGetDayOfWeek (args : List (Option Int)) : Except String NapiValue :=
  if args.length < 1 then
    .error "Expected 1 argument: jdn"
  else
    .ok (.numVal (getDayOfWeek (napiArg args 0)))

/-- Euclidean division helper: quotient and remainder of `n * A + B` by `n`
when `0 ≤ B < n`. -/
theorem mulAddDiv (n A B : Int) (h0 : 0 ≤ B) (h1 : B < n) :
    (n * A + B) / n = A ∧ (n * A + B) % n = B := by
  have hn : (0 : Int) < n := lt_of_le_of_lt h0 h1
  constructor
  · rw [add_comm, Int.add_mul_ediv_left B A (ne_of_gt hn),
      Int.ediv_eq_zero_of_lt h0 h1, zero_add]
  · rw [add_comm, Int.add_mul_emod_self_left, Int.emod_eq_of_lt h0 h1]

/-- Core recovery lemma for `yearDoyFromDays` on a mixed-radix decomposed day
count: `a` 400-year cycles, `b` centuries, `c` 4-year cycles, `e` years and
`k` days (0-based; day 365 only closes a leap year). -/
theorem ydCore (a b c e k : Int) (hb : 0 ≤ b ∧ b ≤ 3) (hc : 0 ≤ c ∧ c ≤ 24)
    (he : 0 ≤ e ∧ e ≤ 3) (hk0 : 0 ≤ k)
    (hk : k ≤ 364 ∨ (k = 365 ∧ e = 3 ∧ (c ≠ 24 ∨ b = 3))) :
    yearDoyFromDays (146097 * a + 36524 * b + 1461 * c + 365 * e + k)
      = (400 * a + 100 * b + 4 * c + e + 1, k + 1) := by
  set D : Int := 146097 * a + 36524 * b + 1461 * c + 365 * e + k with hD
  have h1 : D / 146097 = a ∧ D % 146097 = 36524 * b + 1461 * c + 365 * e + k := by
    rw [hD, show 146097 * a + 36524 * b + 1461 * c + 365 * e + k
      = 146097 * a + (36524 * b + 1461 * c + 365 * e + k) from by ring]
    exact mulAddDiv 146097 a _ (by omega) (by omega)
  by_cases hedge : c = 24 ∧ e = 3 ∧ k = 365
  · obtain ⟨hc24, he3, hk365⟩ := hedge
    have hb3 : b = 3 := by omega
    have h2 : D % 146097 = 146096 := by rw [h1.2]; omega
    simp only [yearDoyFromDays]
    rw [h1.1, h2]
    norm_num [Prod.ext_iff]
    omega
  · have h2 : D % 146097 / 36524 = b ∧ D % 146097 % 36524 = 1461 * c + 365 * e + k := by
      rw [h1.2, show 36524 * b + 1461 * c + 365 * e + k
        = 36524 * b + (1461 * c + 365 * e + k) from by ring]
      exact mulAddDiv 36524 b _ (by omega) (by omega)
    have h3 : D % 146097 % 36524 / 1461 = c ∧ D % 146097 % 36524 % 1461 = 365 * e + k := by
      rw [h2.2, show 1461 * c + 365 * e + k = 1461 * c + (365 * e + k) from by ring]
      exact mulAddDiv 1461 c _ (by omega) (by omega)
    by_cases hk365 : k = 365
    · have he3 : e = 3 := by omega
      have h4 : D % 146097 % 36524 % 1461 / 365 = 4 := by
        rw [h3.2, he3, hk365]
        decide
      simp only [yearDoyFromDays]
      rw [h1.1, h2.1, h3.1, h4]
      norm_num [Prod.ext_iff]
      omega
    · have h4 : D % 146097 % 36524 % 1461 / 365 = e
          ∧ D % 146097 % 36524 % 1461 % 365 = k := by
        rw [h3.2]
        exact mulAddDiv 365 e k hk0 (by omega)
      simp only [yearDoyFromDays]
      rw [h1.1, h2.1, h3.1, h4.1, h4.2]
      have hcond : (b == 4 || e == 4) = false := by
        simp only [Bool.or_eq_false_iff, beq_eq_false_iff_ne, ne_eq]
        omega
      rw [hcond]
      norm_num [Prod.ext_iff]

/-- Forward year-level recovery: `yearDoyFromDays` inverts the
days-before-year count plus day-of-year, for any integer year. -/
theorem yd_inv (y t : Int) (h1 : 1 ≤ t)
    (h2 : t ≤ 365 + (if is_gregorian_leap y then 1 else 0)) :
    yearDoyFromDays (365 * (y - 1) + (y - 1) / 4 - (y - 1) / 100 + (y - 1) / 400 + t - 1)
      = (y, t) := by
  obtain ⟨a, b, c, e, hdec, hb0, hb3, hc0, hc24, he0, he3⟩ :
      ∃ a b c e, y - 1 = 400 * a + 100 * b + 4 * c + e
        ∧ 0 ≤ b ∧ b ≤ 3 ∧ 0 ≤ c ∧ c ≤ 24 ∧ 0 ≤ e ∧ e ≤ 3 :=
    ⟨(y - 1) / 400, (y - 1) % 400 / 100, (y - 1) % 400 % 100 / 4, (y - 1) % 400 % 100 % 4,
      by omega, by omega, by omega, by omega, by omega, by omega, by omega⟩
  have hd4 : (y - 1) / 4 = 100 * a + 25 * b + c := by
    rw [show y - 1 = 4 * (100 * a + 25 * b + c) + e from by omega]
    exact (mulAddDiv 4 _ e he0 (by omega)).1
  have hd100 : (y - 1) / 100 = 4 * a + b := by
    rw [show y - 1 = 100 * (4 * a + b) + (4 * c + e) from by omega]
    exact (mulAddDiv 100 _ _ (by omega) (by omega)).1
  have hd400 : (y - 1) / 400 = a := by
    rw [show y - 1 = 400 * a + (100 * b + 4 * c + e) from by omega]
    exact (mulAddDiv 400 _ _ (by omega) (by omega)).1
  have hm4 : y % 4 = (e + 1) % 4 := by
    rw [show y = (e + 1) + 4 * (100 * a + 25 * b + c) from by omega,
      Int.add_mul_emod_self_left]
  have hm100 : y % 100 = (4 * c + e + 1) % 100 := by
    rw [show y = (4 * c + e + 1) + 100 * (4 * a + b) from by omega,
      Int.add_mul_emod_self_left]
  have hm400 : y % 400 = (100 * b + 4 * c + e + 1) % 400 := by
    rw [show y = (100 * b + 4 * c + e + 1) + 400 * a from by omega,
      Int.add_mul_emod_self_left]
  have hleap : is_gregorian_leap y = true ↔ (e = 3 ∧ (c ≠ 24 ∨ b = 3)) := by
    simp only [is_gregorian_leap, Bool.and_eq_true, Bool.or_eq_true, beq_iff_eq,
      bne_iff_ne, ne_eq]
    omega
  have hkd : t - 1 ≤ 364 ∨ (t - 1 = 365 ∧ e = 3 ∧ (c ≠ 24 ∨ b = 3)) := by
    by_cases hL : is_gregorian_leap y = true
    · have hp := hleap.mp hL
      rw [if_pos hL] at h2
      omega
    · rw [if_neg hL] at h2
      omega
  rw [show 365 * (y - 1) + (y - 1) / 4 - (y - 1) / 100 + (y - 1) / 400 + t - 1
      = 146097 * a + 36524 * b + 1461 * c + 365 * e + (t - 1) from by
        rw [hd4, hd100, hd400]; omega]
  rw [ydCore a b c e (t - 1) ⟨hb0, hb3⟩ ⟨hc0, hc24⟩ ⟨he0, he3⟩ (by omega) hkd]
  simp only [Prod.mk.injEq, and_true]
  omega

/-- Reverse year-level characterization: `yearDoyFromDays d0` returns a year
and an in-range day-of-year whose forward day count is `d0` again. -/
theorem ydChar (d0 : Int) :
    ∃ y t, yearDoyFromDays d0 = (y, t) ∧ 1 ≤ t
      ∧ t ≤ 365 + (if is_gregorian_leap y then 1 else 0)
      ∧ 365 * (y - 1) + (y - 1) / 4 - (y - 1) / 100 + (y - 1) / 400 + t - 1 = d0 := by
  simp only [yearDoyFromDays]
  by_cases h4a : d0 % 146097 / 36524 = 4
  · rw [if_pos (by simp [h4a])]
    have hr1 : d0 % 146097 = 146096 := by omega
    have hz1 : d0 % 146097 % 36524 = 0 := by omega
    have hz2 : d0 % 146097 % 36524 / 1461 = 0 := by omega
    have hz3 : d0 % 146097 % 36524 % 1461 = 0 := by omega
    have hz4 : d0 % 146097 % 36524 % 1461 / 365 = 0 := by omega
    refine ⟨400 * (d0 / 146097) + 400, 366, ?_, by norm_num, ?_, ?_⟩
    · simp only [Prod.mk.injEq, and_true]
      omega
    · have hleap : is_gregorian_leap (400 * (d0 / 146097) + 400) = true := by
        simp only [is_gregorian_leap, Bool.and_eq_true, Bool.or_eq_true, beq_iff_eq,
          bne_iff_ne, ne_eq]
        omega
      rw [if_pos hleap]
      norm_num
    · have e4 : (400 * (d0 / 146097) + 400 - 1) / 4 = 100 * (d0 / 146097) + 99 := by
        rw [show 400 * (d0 / 146097) + 400 - 1 = 4 * (100 * (d0 / 146097) + 99) + 3 from
          by ring]
        exact (mulAddDiv 4 _ 3 (by norm_num) (by norm_num)).1
      have e100 : (400 * (d0 / 146097) + 400 - 1) / 100 = 4 * (d0 / 146097) + 3 := by
        rw [show 400 * (d0 / 146097) + 400 - 1 = 100 * (4 * (d0 / 146097) + 3) + 99 from
          by ring]
        exact (mulAddDiv 100 _ 99 (by norm_num) (by norm_num)).1
      have e400 : (400 * (d0 / 146097) + 400 - 1) / 400 = d0 / 146097 := by
        rw [show 400 * (d0 / 146097) + 400 - 1 = 400 * (d0 / 146097) + 399 from by ring]
        exact (mulAddDiv 400 _ 399 (by norm_num) (by norm_num)).1
      rw [e4, e100, e400]
      omega
  · by_cases h4b : d0 % 146097 % 36524 % 1461 / 365 = 4
    · rw [if_pos (by simp [h4b])]
      have hd3 : d0 % 146097 % 36524 % 1461 = 1460 := by omega
      have hq2 : d0 % 146097 / 36524 ≤ 3 := by omega
      have hq20 : 0 ≤ d0 % 146097 / 36524 := by omega
      have hq3 : d0 % 146097 % 36524 / 1461 ≤ 23 := by omega
      have hq30 : 0 ≤ d0 % 146097 % 36524 / 1461 := by omega
      refine ⟨400 * (d0 / 146097) + 100 * (d0 % 146097 / 36524)
        + 4 * (d0 % 146097 % 36524 / 1461) + 4, 366, ?_, by norm_num, ?_, ?_⟩
      · simp only [Prod.mk.injEq, and_true]
        omega
      · have hleap : is_gregorian_leap (400 * (d0 / 146097) + 100 * (d0 % 146097 / 36524)
            + 4 * (d0 % 146097 % 36524 / 1461) + 4) = true := by
          simp only [is_gregorian_leap, Bool.and_eq_true, Bool.or_eq_true, beq_iff_eq,
            bne_iff_ne, ne_eq]
          omega
        rw [if_pos hleap]
        norm_num
      · have e4 : (400 * (d0 / 146097) + 100 * (d0 % 146097 / 36524)
            + 4 * (d0 % 146097 % 36524 / 1461) + 4 - 1) / 4
            = 100 * (d0 / 146097) + 25 * (d0 % 146097 / 36524)
              + (d0 % 146097 % 36524 / 1461) := by
          rw [show 400 * (d0 / 146097) + 100 * (d0 % 146097 / 36524)
            + 4 * (d0 % 146097 % 36524 / 1461) + 4 - 1
            = 4 * (100 * (d0 / 146097) + 25 * (d0 % 146097 / 36524)
              + (d0 % 146097 % 36524 / 1461)) + 3 from by ring]
          exact (mulAddDiv 4 _ 3 (by norm_num) (by norm_num)).1
        have e100 : (400 * (d0 / 146097) + 100 * (d0 % 146097 / 36524)
            + 4 * (d0 % 146097 % 36524 / 1461) + 4 - 1) / 100
            = 4 * (d0 / 146097) + (d0 % 146097 / 36524) := by
          rw [show 400 * (d0 / 146097) + 100 * (d0 % 146097 / 36524)
            + 4 * (d0 % 146097 % 36524 / 1461) + 4 - 1
            = 100 * (4 * (d0 / 146097) + (d0 % 146097 / 36524))
              + (4 * (d0 % 146097 % 36524 / 1461) + 3) from by ring]
          exact (mulAddDiv 100 _ _ (by omega) (by omega)).1
        have e400 : (400 * (d0 / 146097) + 100 * (d0 % 146097 / 36524)
            + 4 * (d0 % 146097 % 36524 / 1461) + 4 - 1) / 400 = d0 / 146097 := by
          rw [show 400 * (d0 / 146097) + 100 * (d0 % 146097 / 36524)
            + 4 * (d0 % 146097 % 36524 / 1461) + 4 - 1
            = 400 * (d0 / 146097) + (100 * (d0 % 146097 / 36524)
              + 4 * (d0 % 146097 % 36524 / 1461) + 3) from by ring]
          exact (mulAddDiv 400 _ _ (by omega) (by omega)).1
        rw [e4, e100, e400]
        omega
    · rw [if_neg (by simp only [Bool.or_eq_true, beq_iff_eq]; tauto)]
      have hq2 : d0 % 146097 / 36524 ≤ 3 := by omega
      have hq20 : 0 ≤ d0 % 146097 / 36524 := by omega
      have hq3 : d0 % 146097 % 36524 / 1461 ≤ 24 := by omega
      have hq30 : 0 ≤ d0 % 146097 % 36524 / 1461 := by omega
      have hq4 : d0 % 146097 % 36524 % 1461 / 365 ≤ 3 := by omega
      have hq40 : 0 ≤ d0 % 146097 % 36524 % 1461 / 365 := by omega
      refine ⟨_, _, rfl, by omega, ?_, ?_⟩
      · cases hL : is_gregorian_leap (400 * (d0 / 146097) + 100 * (d0 % 146097 / 36524)
          + 4 * (d0 % 146097 % 36524 / 1461) + d0 % 146097 % 36524 % 1461 / 365 + 1)
        · rw [if_neg (by simp [hL])]
          omega
        · rw [if_pos (by simp [hL])]
          omega
      · have e4 : (400 * (d0 / 146097) + 100 * (d0 % 146097 / 36524)
            + 4 * (d0 % 146097 % 36524 / 1461) + d0 % 146097 % 36524 % 1461 / 365
            + 1 - 1) / 4
            = 100 * (d0 / 146097) + 25 * (d0 % 146097 / 36524)
              + (d0 % 146097 % 36524 / 1461) := by
          rw [show 400 * (d0 / 146097) + 100 * (d0 % 146097 / 36524)
            + 4 * (d0 % 146097 % 36524 / 1461) + d0 % 146097 % 36524 % 1461 / 365 + 1 - 1
            = 4 * (100 * (d0 / 146097) + 25 * (d0 % 146097 / 36524)
              + (d0 % 146097 % 36524 / 1461)) + d0 % 146097 % 36524 % 1461 / 365 from
            by ring]
          exact (mulAddDiv 4 _ _ (by omega) (by omega)).1
        have e100 : (400 * (d0 / 146097) + 100 * (d0 % 146097 / 36524)
            + 4 * (d0 % 146097 % 36524 / 1461) + d0 % 146097 % 36524 % 1461 / 365
            + 1 - 1) / 100
            = 4 * (d0 / 146097) + (d0 % 146097 / 36524) := by
          rw [show 400 * (d0 / 146097) + 100 * (d0 % 146097 / 36524)
            + 4 * (d0 % 146097 % 36524 / 1461) + d0 % 146097 % 36524 % 1461 / 365 + 1 - 1
            = 100 * (4 * (d0 / 146097) + (d0 % 146097 / 36524))
              + (4 * (d0 % 146097 % 36524 / 1461)
                + d0 % 146097 % 36524 % 1461 / 365) from by ring]
          exact (mulAddDiv 100 _ _ (by omega) (by omega)).1
        have e400 : (400 * (d0 / 146097) + 100 * (d0 % 146097 / 36524)
            + 4 * (d0 % 146097 % 36524 / 1461) + d0 % 146097 % 36524 % 1461 / 365
            + 1 - 1) / 400 = d0 / 146097 := by
          rw [show 400 * (d0 / 146097) + 100 * (d0 % 146097 / 36524)
            + 4 * (d0 % 146097 % 36524 / 1461) + d0 % 146097 % 36524 % 1461 / 365 + 1 - 1
            = 400 * (d0 / 146097) + (100 * (d0 % 146097 / 36524)
              + 4 * (d0 % 146097 % 36524 / 1461)
              + d0 % 146097 % 36524 % 1461 / 365) from by ring]
          exact (mulAddDiv 400 _ _ (by omega) (by omega)).1
        rw [e4, e100, e400]
        omega

set_option maxHeartbeats 2000000 in
/-- `doyToMonthDay` inverts `monthStartDays` plus a valid day offset. -/
theorem md_inv (leap : Bool) (m d : Int) (h1 : 1 ≤ m) (h2 : m ≤ 12) (h3 : 1 ≤ d)
    (h4 : d ≤ if m = 2 then (if leap = true then 29 else 28)
      else if m = 4 ∨ m = 6 ∨ m = 9 ∨ m = 11 then 30 else 31) :
    doyToMonthDay leap (monthStartDays leap m + d) = (m, d) := by
  cases leap <;> interval_cases m <;>
    (norm_num [monthStartDays, doyToMonthDay] at h4 ⊢ <;>
      split_ifs at h4 ⊢ <;>
      (try simp only [Prod.mk.injEq]) <;>
      omega)

/-- Every in-range day-of-year splits as a month start plus a day via
`doyToMonthDay`. -/
theorem md_surj (leap : Bool) (t : Int) (ht1 : 1 ≤ t)
    (ht2 : t ≤ 365 + (if leap then 1 else 0)) :
    ∃ mm dd, doyToMonthDay leap t = (mm, dd) ∧ monthStartDays leap mm + dd = t := by
  simp only [doyToMonthDay]
  split_ifs with hc1 hc2 <;> refine ⟨_, _, rfl, ?_⟩ <;>
    simp only [monthStartDays] <;>
    split_ifs <;>
    omega

/-- Propositional characterization of `is_valid_gregorian_date`. -/
theorem valid_greg_iff (y m d : Int) : is_valid_gregorian_date y m d = true ↔
    1 ≤ m ∧ m ≤ 12 ∧ 1 ≤ d ∧
      d ≤ (if m = 2 then (if is_gregorian_leap y = true then 29 else 28)
        else if m = 4 ∨ m = 6 ∨ m = 9 ∨ m = 11 then 30 else 31) := by
  simp only [is_valid_gregorian_date, gregorianDaysInMonth, Bool.and_eq_true,
    decide_eq_true_eq]
  split_ifs <;> omega

/-- Propositional characterization of `is_valid_ethiopic_date`. -/
theorem valid_eth_iff (y m d : Int) : is_valid_ethiopic_date y m d = true ↔
    1 ≤ m ∧ m ≤ 13 ∧ 1 ≤ d ∧
      ((m ≤ 12 ∧ d ≤ 30) ∨ (m = 13 ∧ (d ≤ 5 ∨ (d ≤ 6 ∧ y % 4 = 3)))) := by
  simp only [is_valid_ethiopic_date, ethiopicDaysInMonth, ethiopic_is_leap,
    Bool.and_eq_true, decide_eq_true_eq, beq_iff_eq]
  split_ifs <;> omega

/-- Gregorian round trip, forward: converting a valid Gregorian date to JDN
and back returns the same date. -/
theorem gregRoundTrip (y m d : Int) (hv : is_valid_gregorian_date y m d = true) :
    jdn_to_gregorian (gregorian_to_jdn y m d) = ⟨y, m, d⟩ := by
  rw [valid_greg_iff] at hv
  obtain ⟨hm1, hm2, hd1, hd2⟩ := hv
  have ht1 : 1 ≤ monthStartDays (is_gregorian_leap y) m + d := by
    simp only [monthStartDays]
    split_ifs <;> omega
  have ht2 : monthStartDays (is_gregorian_leap y) m + d
      ≤ 365 + (if is_gregorian_leap y then 1 else 0) := by
    simp only [monthStartDays]
    split_ifs at hd2 ⊢ <;> omega
  have harg : gregorian_to_jdn y m d - JD_EPOCH_OFFSET_GREGORIAN
      = 365 * (y - 1) + (y - 1) / 4 - (y - 1) / 100 + (y - 1) / 400
        + (monthStartDays (is_gregorian_leap y) m + d) - 1 := by
    simp only [gregorian_to_jdn]
    ring
  simp only [jdn_to_gregorian]
  rw [harg, yd_inv y (monthStartDays (is_gregorian_leap y) m + d) ht1 ht2]
  dsimp only
  rw [md_inv (is_gregorian_leap y) m d hm1 hm2 hd1 hd2]

/-- Gregorian round trip, reverse: the JDN of the date recovered from any JDN
is that JDN again. -/
theorem gregJdnRoundTrip (j : Int) :
    gregorian_to_jdn (jdn_to_gregorian j).year (jdn_to_gregorian j).month
      (jdn_to_gregorian j).day = j := by
  obtain ⟨Y, t, hyd, ht1, ht2, heq⟩ := ydChar (j - JD_EPOCH_OFFSET_GREGORIAN)
  obtain ⟨mm, dd, hmd, hsum⟩ := md_surj (is_gregorian_leap Y) t ht1 ht2
  have h1 : jdn_to_gregorian j = ⟨Y, mm, dd⟩ := by
    simp only [jdn_to_gregorian, hyd, hmd]
  rw [h1]
  simp only [gregorian_to_jdn]
  omega

/-- Ethiopic recovery on a decomposed day count: `q` four-year cycles, `s`
years and a 0-based offset `V` into the year (day 365 only in leap years). -/
theorem ethCore (q s V e : Int) (hs : 0 ≤ s ∧ s ≤ 3) (hV0 : 0 ≤ V)
    (hV : V ≤ 364 ∨ (V = 365 ∧ s = 3)) :
    jdn_to_ethiopic (e + 1461 * q + 365 * s + V) e
      = ⟨4 * q + s, V / 30 + 1, V % 30 + 1⟩ := by
  have harg : e + 1461 * q + 365 * s + V - e = 1461 * q + (365 * s + V) := by ring
  simp only [jdn_to_ethiopic]
  rw [harg]
  have h1 := mulAddDiv 1461 q (365 * s + V) (by omega) (by omega)
  rw [h1.1, h1.2]
  by_cases hV365 : V = 365
  · have hs3 : s = 3 := by omega
    subst hV365 hs3
    simp only [date_t.mk.injEq]
    omega
  · have h2 := mulAddDiv 365 s V hV0 (by omega)
    have h3 : (365 * s + V) / 1460 = 0 := Int.ediv_eq_zero_of_lt (by omega) (by omega)
    rw [h2.1, h2.2, h3]
    simp only [date_t.mk.injEq]
    omega

/-- Ethiopic round trip, forward: converting a valid Ethiopian date to JDN
and back under the same epoch offset returns the same date. -/
theorem ethRoundTrip (y m d e : Int) (hv : is_valid_ethiopic_date y m d = true) :
    jdn_to_ethiopic (ethiopic_to_jdn y m d e) e = ⟨y, m, d⟩ := by
  rw [valid_eth_iff] at hv
  obtain ⟨hm1, hm2, hd1, hdisj⟩ := hv
  obtain ⟨q, s, hqs, hs0, hs3⟩ : ∃ q s, y = 4 * q + s ∧ 0 ≤ s ∧ s ≤ 3 :=
    ⟨y / 4, y % 4, by omega, by omega, by omega⟩
  have hy4 : y / 4 = q := by omega
  have hsy : y % 4 = s := by omega
  have harg : ethiopic_to_jdn y m d e = e + 1461 * q + 365 * s + (30 * m + d - 31) := by
    simp only [ethiopic_to_jdn]
    rw [hy4]
    omega
  rw [harg, ethCore q s (30 * m + d - 31) e ⟨hs0, hs3⟩ (by omega) (by omega)]
  have hV30 := mulAddDiv 30 (m - 1) (d - 1) (by omega) (by omega)
  have hVr : 30 * m + d - 31 = 30 * (m - 1) + (d - 1) := by ring
  rw [hVr, hV30.1, hV30.2]
  simp only [date_t.mk.injEq]
  omega

/-- Ethiopic round trip, reverse: the JDN of the Ethiopian date recovered
from any JDN under any epoch offset is that JDN again. -/
theorem ethJdnRoundTrip (j e : Int) :
    ethiopic_to_jdn (jdn_to_ethiopic j e).year (jdn_to_ethiopic j e).month
      (jdn_to_ethiopic j e).day e = j := by
  simp only [jdn_to_ethiopic, ethiopic_to_jdn]
  have hu : 0 ≤ (j - e) % 1461 / 365 - (j - e) % 1461 / 1460
      ∧ (j - e) % 1461 / 365 - (j - e) % 1461 / 1460 ≤ 3 := by omega
  have hY4 : (4 * ((j - e) / 1461) + (j - e) % 1461 / 365 - (j - e) % 1461 / 1460) / 4
      = (j - e) / 1461 := by
    rw [show 4 * ((j - e) / 1461) + (j - e) % 1461 / 365 - (j - e) % 1461 / 1460
      = 4 * ((j - e) / 1461) + ((j - e) % 1461 / 365 - (j - e) % 1461 / 1460) from
      by ring]
    exact (mulAddDiv 4 _ _ hu.1 (by omega)).1
  omega

/-- Helper: `getDayOfWeek` on a non-negative machine integer. -/
theorem getDayOfWeek_ofNat (n : Nat) : getDayOfWeek (Int.ofNat n) = Int.ofNat (n % 7) :=
  rfl

/-- Helper: `getDayOfWeek` on a negative machine integer (C++ truncating `%`). -/
theorem getDayOfWeek_negSucc (n : Nat) :
    getDayOfWeek (Int.negSucc n) = -Int.ofNat ((n + 1) % 7) :=
  rfl

/-- C1: the concrete conversion vectors hold exactly:
Ethiopian 1857-10-29 (Amete Mihret) ↔ Gregorian 1865-7-5, Ethiopian 2000-13-5
↔ Gregorian 2008-9-10, and Gregorian 2024-12-25 → Ethiopian 2017-4-16. -/
theorem claim_concrete_vectors :
    ethiopic_to_gregorian 1857 10 29 JD_EPOCH_OFFSET_AMETE_MIHRET = ⟨1865, 7, 5⟩
    ∧ gregorian_to_ethiopic 1865 7 5 = ⟨1857, 10, 29⟩
    ∧ ethiopic_to_gregorian 2000 13 5 JD_EPOCH_OFFSET_AMETE_MIHRET = ⟨2008, 9, 10⟩
    ∧ gregorian_to_ethiopic 2008 9 10 = ⟨2000, 13, 5⟩
    ∧ gregorian_to_ethiopic 2024 12 25 = ⟨2017, 4, 16⟩ := by
  refine ⟨?_, ?_, ?_, ?_, ?_⟩ <;> decide

/-- C2: for every valid Gregorian date the JDN round trip
`jdn_to_gregorian ∘ gregorian_to_jdn` is the identity, and for every valid
Ethiopian date and epoch offset in {Amete Alem, Amete Mihret} the round trip
`jdn_to_ethiopic ∘ ethiopic_to_jdn` under that fixed offset is the identity. -/
theorem claim_round_trips :
    (∀ y m d : Int, is_valid_gregorian_date y m d = true →
      jdn_to_gregorian (gregorian_to_jdn y m d) = ⟨y, m, d⟩)
    ∧ (∀ y m d e : Int,
        (e = JD_EPOCH_OFFSET_AMETE_ALEM ∨ e = JD_EPOCH_OFFSET_AMETE_MIHRET) →
        is_valid_ethiopic_date y m d = true →
        jdn_to_ethiopic (ethiopic_to_jdn y m d e) e = ⟨y, m, d⟩) :=
  ⟨fun y m d hv => gregRoundTrip y m d hv,
   fun y m d e _ hv => ethRoundTrip y m d e hv⟩

/-- Witness for C2 at Gregorian 2024-2-29 and Ethiopian 2015-13-6. -/
theorem claim_round_trips_witness :
    jdn_to_gregorian (gregorian_to_jdn 2024 2 29) = ⟨2024, 2, 29⟩
    ∧ jdn_to_ethiopic (ethiopic_to_jdn 2015 13 6 JD_EPOCH_OFFSET_AMETE_MIHRET)
        JD_EPOCH_OFFSET_AMETE_MIHRET = ⟨2015, 13, 6⟩ :=
  ⟨claim_round_trips.1 2024 2 29 (by decide),
   claim_round_trips.2 2015 13 6 JD_EPOCH_OFFSET_AMETE_MIHRET (Or.inr rfl) (by decide)⟩

/-- C3: with the era argument omitted, the binding's `ethiopicToGregorian`
converts under the epoch offset that `guess_era` resolves from the tentative
Amete-Mihret JDN, and `guess_era` is the threshold comparison against the JDN
of Amete Mihret 1-1-1. -/
theorem claim_era_auto_detection :
    (∀ y m d : Int, is_valid_ethiopic_date y m d = true →
      napiEthiopicToGregorian [some y, some m, some d]
        = .ok (.dateObj (ethiopic_to_gregorian y m d
            (guess_era (ethiopic_to_jdn y m d JD_EPOCH_OFFSET_AMETE_MIHRET)))))
    ∧ (∀ jdn : Int,
        guess_era jdn =
          if ethiopic_to_jdn 1 1 1 JD_EPOCH_OFFSET_AMETE_MIHRET ≤ jdn then
            JD_EPOCH_OFFSET_AMETE_MIHRET
          else JD_EPOCH_OFFSET_AMETE_ALEM) := by
  constructor
  · intro y m d hv
    simp [napiEthiopicToGregorian, napiArg, hv]
  · intro jdn
    rfl

/-- Witness for C3 at Ethiopian 2000-13-5 (auto-detection resolves to Amete
Mihret there). -/
theorem claim_era_auto_detection_witness :
    napiEthiopicToGregorian [some 2000, some 13, some 5]
      = .ok (.dateObj (ethiopic_to_gregorian 2000 13 5
          (guess_era (ethiopic_to_jdn 2000 13 5 JD_EPOCH_OFFSET_AMETE_MIHRET)))) :=
  claim_era_auto_detection.1 2000 13 5 (by decide)

/-- C4: the binding entry points validate before converting — each one
errors with the calendar-validity message exactly when the corresponding
validator rejects the triple, and returns the converted date otherwise. -/
theorem claim_validate_before_convert :
    ∀ y m d : Int,
      (is_valid_ethiopic_date y m d = false →
        napiEthiopicToGregorian [some y, some m, some d]
          = .error "Invalid Ethiopian date")
      ∧ (is_valid_ethiopic_date y m d = true →
        napiEthiopicToGregorian [some y, some m, some d]
          = .ok (.dateObj (ethiopic_to_gregorian y m d
              (guess_era (ethiopic_to_jdn y m d JD_EPOCH_OFFSET_AMETE_MIHRET)))))
      ∧ (is_valid_gregorian_date y m d = false →
        napiGregorianToEthiopic [some y, some m, some d]
          = .error "Invalid Gregorian date")
      ∧ (is_valid_gregorian_date y m d = true →
        napiGregorianToEthiopic [some y, some m, some d]
          = .ok (.dateObj (gregorian_to_ethiopic y m d))) := by
  intro y m d
  refine ⟨fun h => ?_, fun h => ?_, fun h => ?_, fun h => ?_⟩ <;>
    simp [napiEthiopicToGregorian, napiGregorianToEthiopic, napiArg, h]

/-- Witness for C4: Ethiopian 2017-13-6 is rejected, 2017-13-5 converts;
Gregorian 2023-2-29 is rejected, 2024-2-29 converts. -/
theorem claim_validate_before_convert_witness :
    napiEthiopicToGregorian [some 2017, some 13, some 6]
      = .error "Invalid Ethiopian date"
    ∧ napiEthiopicToGregorian [some 2017, some 13, some 5]
      = .ok (.dateObj (ethiopic_to_gregorian 2017 13 5
          (guess_era (ethiopic_to_jdn 2017 13 5 JD_EPOCH_OFFSET_AMETE_MIHRET))))
    ∧ napiGregorianToEthiopic [some 2023, some 2, some 29]
      = .error "Invalid Gregorian date"
    ∧ napiGregorianToEthiopic [some 2024, some 2, some 29]
      = .ok (.dateObj (gregorian_to_ethiopic 2024 2 29)) :=
  ⟨(claim_validate_before_convert 2017 13 6).1 (by decide),
   (claim_validate_before_convert 2017 13 5).2.1 (by decide),
   (claim_validate_before_convert 2023 2 29).2.2.1 (by decide),
   (claim_validate_before_convert 2024 2 29).2.2.2 (by decide)⟩

/-- C5: `is_valid_ethiopic_date` accepts exactly month 1–13 with day 1–30 for
months 1–12, and day 1–5 in Pagume, extended to 1–6 exactly when
`year % 4 == 3`; with the three quoted evaluations. -/
theorem claim_ethiopic_validity :
    (∀ y m d : Int, is_valid_ethiopic_date y m d = true ↔
      (1 ≤ m ∧ m ≤ 13 ∧ ((1 ≤ m ∧ m ≤ 12 ∧ 1 ≤ d ∧ d ≤ 30)
        ∨ (m = 13 ∧ 1 ≤ d ∧ (d ≤ 5 ∨ (d ≤ 6 ∧ y % 4 = 3))))))
    ∧ is_valid_ethiopic_date 2015 13 6 = true
    ∧ is_valid_ethiopic_date 2017 13 6 = false
    ∧ is_valid_ethiopic_date 2017 13 5 = true := by
  refine ⟨fun y m d => ?_, by decide, by decide, by decide⟩
  rw [valid_eth_iff]
  omega

/-- C6: `is_gregorian_leap` is the 4/100/400 rule and
`is_valid_gregorian_date` follows the standard 28/29/30/31 month table with
February 29 exactly in leap years; with the quoted evaluations. -/
theorem claim_gregorian_validity :
    (∀ y : Int, is_gregorian_leap y = true ↔
      (y % 4 = 0 ∧ (y % 100 ≠ 0 ∨ y % 400 = 0)))
    ∧ (∀ y m d : Int, is_valid_gregorian_date y m d = true ↔
        (1 ≤ m ∧ m ≤ 12 ∧ 1 ≤ d ∧
          d ≤ (if m = 2 then (if is_gregorian_leap y = true then 29 else 28)
            else if m = 4 ∨ m = 6 ∨ m = 9 ∨ m = 11 then 30 else 31)))
    ∧ is_gregorian_leap 1900 = false
    ∧ is_gregorian_leap 2000 = true
    ∧ is_valid_gregorian_date 2024 2 29 = true
    ∧ is_valid_gregorian_date 2023 2 29 = false := by
  refine ⟨fun y => ?_, fun y m d => valid_greg_iff y m d,
    by decide, by decide, by decide, by decide⟩
  simp only [is_gregorian_leap, Bool.and_eq_true, Bool.or_eq_true, beq_iff_eq,
    bne_iff_ne, ne_eq]

/-- C7: for a valid Ethiopian date with an explicit era matching what
`guess_era` resolves for its JDN, converting to Gregorian and back through
`gregorian_to_ethiopic` returns the original date. -/
theorem claim_cross_round_trip :
    ∀ y m d e : Int, is_valid_ethiopic_date y m d = true →
      guess_era (ethiopic_to_jdn y m d e) = e →
      gregorian_to_ethiopic (ethiopic_to_gregorian y m d e).year
        (ethiopic_to_gregorian y m d e).month (ethiopic_to_gregorian y m d e).day
        = ⟨y, m, d⟩ := by
  intro y m d e hv hera
  have hj : gregorian_to_jdn (ethiopic_to_gregorian y m d e).year
      (ethiopic_to_gregorian y m d e).month (ethiopic_to_gregorian y m d e).day
      = ethiopic_to_jdn y m d e := by
    simp only [ethiopic_to_gregorian]
    exact gregJdnRoundTrip (ethiopic_to_jdn y m d e)
  simp only [gregorian_to_ethiopic]
  rw [hj, hera]
  exact ethRoundTrip y m d e hv

/-- Witness for C7 at Ethiopian 2000-13-5 under the Amete Mihret offset. -/
theorem claim_cross_round_trip_witness :
    gregorian_to_ethiopic
      (ethiopic_to_gregorian 2000 13 5 JD_EPOCH_OFFSET_AMETE_MIHRET).year
      (ethiopic_to_gregorian 2000 13 5 JD_EPOCH_OFFSET_AMETE_MIHRET).month
      (ethiopic_to_gregorian 2000 13 5 JD_EPOCH_OFFSET_AMETE_MIHRET).day
      = ⟨2000, 13, 5⟩ :=
  claim_cross_round_trip 2000 13 5 JD_EPOCH_OFFSET_AMETE_MIHRET (by decide) (by decide)

/-- C8 counterexample: `getDayOfWeek` uses C++ truncating `%`, so at JDN −1
it returns −1 — outside 0–6 and different from the mathematical −1 mod 7 = 6. -/
theorem claim_day_of_week_counterexample :
    getDayOfWeek (-1) = -1 ∧ ¬(0 ≤ getDayOfWeek (-1))
    ∧ getDayOfWeek (-1) ≠ (-1 : Int) % 7 := by
  decide

/-- C8 amended: for non-negative JDNs `getDayOfWeek` is `jdn % 7` in 0–6; for
negative JDNs the result lies in −6..0 (C++ truncating `%`); in general it is
congruent to the JDN modulo 7, consecutive JDNs give consecutive indices
modulo 7, and index 0 lands on Mondays (e.g. Gregorian 2024-12-23). -/
theorem claim_day_of_week_amended :
    (∀ jdn : Int, 0 ≤ jdn →
      getDayOfWeek jdn = jdn % 7 ∧ 0 ≤ getDayOfWeek jdn ∧ getDayOfWeek jdn ≤ 6)
    ∧ (∀ jdn : Int, jdn < 0 →
      -6 ≤ getDayOfWeek jdn ∧ getDayOfWeek jdn ≤ 0)
    ∧ (∀ jdn : Int, getDayOfWeek jdn % 7 = jdn % 7
        ∧ (getDayOfWeek (jdn + 1) - getDayOfWeek jdn) % 7 = 1 % 7)
    ∧ getDayOfWeek (gregorian_to_jdn 2024 12 23) = 0 := by
  have hcong : ∀ a : Int, getDayOfWeek a % 7 = a % 7 := by
    intro a
    rcases a with n | n
    · rw [getDayOfWeek_ofNat]
      simp only [Int.ofNat_eq_natCast]
      omega
    · rw [getDayOfWeek_negSucc]
      simp only [Int.ofNat_eq_natCast, Int.negSucc_eq]
      omega
  refine ⟨fun jdn h => ?_, fun jdn h => ?_, fun jdn => ⟨hcong jdn, ?_⟩, by decide⟩
  · rcases jdn with n | n
    · rw [getDayOfWeek_ofNat]
      simp only [Int.ofNat_eq_natCast]
      omega
    · exfalso
      simp only [Int.negSucc_eq] at h
      omega
  · rcases jdn with n | n
    · exfalso
      simp only [Int.ofNat_eq_natCast] at h
      omega
    · rw [getDayOfWeek_negSucc]
      simp only [Int.ofNat_eq_natCast]
      omega
  · have h1 := hcong (jdn + 1)
    have h2 := hcong jdn
    omega

/-- Witness for C8 (amended) at JDN 10 and JDN −8. -/
theorem claim_day_of_week_amended_witness :
    (getDayOfWeek 10 = (10 : Int) % 7 ∧ 0 ≤ getDayOfWeek 10 ∧ getDayOfWeek 10 ≤ 6)
    ∧ (-6 ≤ getDayOfWeek (-8) ∧ getDayOfWeek (-8) ≤ 0) :=
  ⟨claim_day_of_week_amended.1 10 (by decide),
   claim_day_of_week_amended.2.1 (-8) (by decide)⟩

/-- C9 counterexample: the validity predicates do not signal an input-shape
error on missing arguments — they return the boolean `false`. -/
theorem claim_arity_counterexample :
    napiIsValidEthiopicDate [] = .ok (.boolVal false)
    ∧ napiIsValidGregorianDate [some 2024] = .ok (.boolVal false)
    ∧ napiIsGregorianLeap [] = .ok (.boolVal false) :=
  ⟨rfl, rfl, rfl⟩

/-- C9 amended: the conversion and JDN operations reject missing arguments
with an explicit arity error, distinct from the calendar-validity errors,
before any core conversion; the three validity predicates instead return the
boolean `false` on missing arguments. -/
theorem claim_arity_amended :
    ∀ args : List (Option Int),
      (args.length < 3 →
        napiEthiopicToGregorian args = .error "Expected 3 arguments: year, month, day"
        ∧ napiGregorianToEthiopic args = .error "Expected 3 arguments: year, month, day"
        ∧ napiEthiopicToJDN args = .error "Expected 3 arguments: year, month, day"
        ∧ napiGregorianToJDN args = .error "Expected 3 arguments: year, month, day"
        ∧ napiIsValidEthiopicDate args = .ok (.boolVal false)
        ∧ napiIsValidGregorianDate args = .ok (.boolVal false))
      ∧ (args.length < 1 →
        napiJDNToEthiopic args = .error "Expected 1 argument: jdn"
        ∧ napiJDNToGregorian args = .error "Expected 1 argument: jdn"
        ∧ napiGetDayOfWeek args = .error "Expected 1 argument: jdn"
        ∧ napiIsGregorianLeap args = .ok (.boolVal false))
      ∧ ("Expected 3 arguments: year, month, day" ≠ "Invalid Ethiopian date"
        ∧ "Expected 3 arguments: year, month, day" ≠ "Invalid Gregorian date") := by
  intro args
  refine ⟨fun h => ?_, fun h => ?_, by decide⟩
  · simp [napiEthiopicToGregorian, napiGregorianToEthiopic, napiEthiopicToJDN,
      napiGregorianToJDN, napiIsValidEthiopicDate, napiIsValidGregorianDate, h]
  · simp [napiJDNToEthiopic, napiJDNToGregorian, napiGetDayOfWeek,
      napiIsGregorianLeap, h]

/-- Witness for C9 (amended) at a one-argument call and an empty call. -/
theorem claim_arity_amended_witness :
    napiEthiopicToGregorian [some 5] = .error "Expected 3 arguments: year, month, day"
    ∧ napiJDNToGregorian [] = .error "Expected 1 argument: jdn" :=
  ⟨((claim_arity_amended [some 5]).1 (by decide)).1,
   ((claim_arity_amended []).2.1 (by decide)).2.1⟩

/-- C10: a valid Gregorian date whose JDN lies strictly before the Amete
Mihret boundary converts under the Amete Alem offset (where the Amete Mihret
numbering would give a non-positive year); in particular Gregorian 7-8-28 ↔
Ethiopian 5500-1-1 Amete Alem. -/
theorem claim_pre_boundary_amete_alem :
    (∀ y m d : Int, is_valid_gregorian_date y m d = true →
      gregorian_to_jdn y m d < ethiopic_to_jdn 1 1 1 JD_EPOCH_OFFSET_AMETE_MIHRET →
      gregorian_to_ethiopic y m d
        = jdn_to_ethiopic (gregorian_to_jdn y m d) JD_EPOCH_OFFSET_AMETE_ALEM
      ∧ (jdn_to_ethiopic (gregorian_to_jdn y m d) JD_EPOCH_OFFSET_AMETE_MIHRET).year ≤ 0)
    ∧ gregorian_to_ethiopic 7 8 28 = ⟨5500, 1, 1⟩
    ∧ ethiopic_to_gregorian 5500 1 1 JD_EPOCH_OFFSET_AMETE_ALEM = ⟨7, 8, 28⟩ := by
  refine ⟨fun y m d hv hlt => ⟨?_, ?_⟩, by decide, by decide⟩
  · simp only [gregorian_to_ethiopic, guess_era]
    rw [if_neg (by omega)]
  · simp only [ethiopic_to_jdn, JD_EPOCH_OFFSET_AMETE_MIHRET] at hlt
    simp only [jdn_to_ethiopic, JD_EPOCH_OFFSET_AMETE_MIHRET]
    omega

/-- Witness for C10 at Gregorian 7-8-28. -/
theorem claim_pre_boundary_amete_alem_witness :
    gregorian_to_ethiopic 7 8 28
      = jdn_to_ethiopic (gregorian_to_jdn 7 8 28) JD_EPOCH_OFFSET_AMETE_ALEM
    ∧ (jdn_to_ethiopic (gregorian_to_jdn 7 8 28) JD_EPOCH_OFFSET_AMETE_MIHRET).year ≤ 0 :=
  claim_pre_boundary_amete_alem.1 7 8 28 (by decide) (by decide)
